import Mathlib

/-
  Verification of the Kanban task-board core (tasks.js, storage.js, api.js,
  the load strategy in script.js, and the modal handlers in ui.js).

  Shallow embedding conventions:
  * A task record is the structure `Task`; the optional `priority` field of a
    JS object is `Option String` (`none` models an absent field, as produced
    by the create/update stubs in api.js which copy only id/title/description/
    status).
  * `localStorage` is the structure `Store`.  The `tasks` key holds, when set,
    the JSON text of a value; we model the parsed value directly as
    `StoredVal` (JSON.parse / JSON.stringify are inverse on the values the
    program writes, so the string level is elided).  The constructors other
    than `arr` stand for valid JSON values that are not arrays.  The
    `lastSaved` / `lastModified` keys hold decimal renderings of naturals
    (`Date.now()` output); absence of the key is `none`.  A stored decimal
    string is never empty, so string truthiness of `getItem` coincides with
    presence, while the numeric truthiness applied to `parseInt(lastSaved)`
    additionally treats the value 0 as unset.
  * The in-memory module state of tasks.js (the `tasks` array, the `taskMap`
    object, and the storage) is `AppState`.  `taskMap` is modelled as the
    key-to-value mapping `Nat -> Option Task` of the JS object.
  * `Date.now()` is an explicit `now : Nat` argument of each operation.
  * Each operation additionally returns the list of remote-stub calls it
    performed (`ApiCall`), so that claims about calls being made or skipped
    are statements about this trace.
-/

namespace Kanban

/-- A task record: id, title, description, status, and the optional
priority field (`none` = field absent on the JS object). -/
structure Task where
  id : Nat
  title : String
  description : String
  status : String
  priority : Option String
deriving DecidableEq, Repr

/-- The payload handed to addTask / editTask by the UI:
`\x7btitle, description, status, priority\x7d` with string values. -/
structure TaskData where
  title : String
  description : String
  status : String
  priority : String
deriving DecidableEq, Repr

/-- A parsed JSON value stored under the `tasks` key.  `arr` is a JSON array
of well-formed task records; the remaining constructors stand for valid JSON
values that are not arrays (number, string, boolean, null, object). -/
inductive StoredVal where
  | arr (ts : List Task)
  | num (n : Int)
  | str (s : String)
  | boolv (b : Bool)
  | nullv
  | objv (fields : List (String × String))
deriving DecidableEq, Repr

/-- Whether a stored JSON value is an array (JS `Array.isArray`). -/
def StoredVal.isArr : StoredVal → Bool
  | StoredVal.arr _ => true
  | _ => false

/-- The persistent local store (`localStorage`), restricted to the three keys
the core uses: `tasks`, `lastSaved`, `lastModified`.  `none` = key absent. -/
structure Store where
  tasksVal : Option StoredVal
  lastSaved : Option Nat
  lastModified : Option Nat
deriving DecidableEq, Repr

/-- One remote-stub interaction, recorded in operation traces. -/
inductive ApiCall where
  | fetch
  | create (d : TaskData)
  | update (id : Nat) (d : TaskData)
  | delete (id : Nat)
deriving DecidableEq, Repr

/-- The in-memory module state of tasks.js plus the local store. -/
structure AppState where
  tasks : List Task
  taskMap : Nat → Option Task
  store : Store

/-- The state at process start: empty tasks array, empty taskMap. -/
def initialState : AppState :=
  { tasks := [], taskMap := fun _ => none
    store := { tasksVal := none, lastSaved := none, lastModified := none } }

/- ----------------------------------------------------------------
   api.js (src/.history/api_20250815122547.js)
   ---------------------------------------------------------------- -/

/-- api.js `createTask`: fabricates `id: Date.now()` and copies only
title/description/status — the `priority` field of the input is dropped. -/
def createTask (now : Nat) (d : TaskData) : Task :=
  { id := now, title := d.title, description := d.description
    status := d.status, priority := none }

/-- api.js `updateTask`: echoes back `\x7bid, title, description, status\x7d`
built from the update payload (read-only API, local stub). -/
def updateTask (taskId : Nat) (d : TaskData) : Task :=
  { id := taskId, title := d.title, description := d.description
    status := d.status, priority := none }

/-- api.js `deleteTaskAPI`: always resolves true. -/
def deleteTaskAPI (_taskId : Nat) : Bool := true

/-- api.js `fetchTasks` given the transport outcome `net` (`Except.error m`
models a thrown network/HTTP error whose message is `m`; `Except.ok v` a
parsed 2xx JSON body): wraps any error as
`Failed to fetch tasks: <m>` and coerces a non-array body to `[]`. -/
def fetchTasks (net : Except String StoredVal) : Except String (List Task) :=
  match net with
  | Except.error m => Except.error ("Failed to fetch tasks: " ++ m)
  | Except.ok (StoredVal.arr ts) => Except.ok ts
  | Except.ok _ => Except.ok []

/- ----------------------------------------------------------------
   storage.js (src/unnamed/part_000, first file)
   ---------------------------------------------------------------- -/

/-- storage.js `saveToLocalStorage`: writes the serialized tasks array under
`tasks` and `Date.now()` under `lastSaved`. -/
def saveToLocalStorage (now : Nat) (s : AppState) : AppState :=
  { s with store := { s.store with
      tasksVal := some (StoredVal.arr s.tasks)
      lastSaved := some now } }

/-- JS `taskMap[t.id] = t`: point update of the key-to-record mapping. -/
def insertTask (m : Nat → Option Task) (t : Task) : Nat → Option Task :=
  fun k => if k = t.id then some t else m k

/-- The mapping built by inserting every task of the list in order into an
empty object (later entries overwrite earlier ones with the same id),
exactly the loop body of tasks.js `refreshTaskMap`. -/
def buildMap (ts : List Task) : Nat → Option Task :=
  ts.foldl insertTask (fun _ => none)

/-- tasks.js `refreshTaskMap`: clears the map and repopulates it from the
current tasks array. -/
def refreshTaskMap (s : AppState) : AppState :=
  { s with taskMap := buildMap s.tasks }

/-- Result of storage.js `loadFromLocalStorage`: the updated module state and
the returned boolean. -/
structure LocalLoadResult where
  s : AppState
  found : Bool

/-- storage.js `loadFromLocalStorage`: if the `tasks` key is absent, returns
false leaving everything unchanged; if it holds a JSON array, clears and
refills the tasks array, refreshes the map, returns true; if it holds valid
JSON that is not an array, `tasks.length = 0` has already cleared the array
when `parsed.forEach` throws, the error is caught, and false is returned
with the map not refreshed. -/
def loadFromLocalStorage (s : AppState) : LocalLoadResult :=
  match s.store.tasksVal with
  | none => { s := s, found := false }
  | some (StoredVal.arr ts) =>
      { s := refreshTaskMap { s with tasks := ts }, found := true }
  | some _ => { s := { s with tasks := [] }, found := false }

/-- storage.js `getLastSavedTime`: the parsed `lastSaved` value, or null. -/
def getLastSavedTime (st : Store) : Option Nat := st.lastSaved

/-- storage.js `hasUnsavedChanges`: `if (!lastSaved || !lastModified) return
false; return parseInt(lastModified) > lastSaved;`.  The first conjunct is
numeric falsiness of the parsed `lastSaved` (so the value 0 counts as unset);
the second is string falsiness of `getItem('lastModified')`, which for a
decimal rendering is just presence. -/
def hasUnsavedChanges (st : Store) : Bool :=
  match getLastSavedTime st, st.lastModified with
  | some sv, some m => if sv = 0 then false else decide (m > sv)
  | _, _ => false

/-- storage.js `markAsModified`: writes `Date.now()` under `lastModified`. -/
def markAsModified (now : Nat) (st : Store) : Store :=
  { st with lastModified := some now }

/- ----------------------------------------------------------------
   tasks.js
   ---------------------------------------------------------------- -/

/-- Result of tasks.js `addTask`. -/
structure AddResult where
  newTask : Task
  s : AppState
  calls : List ApiCall

/-- tasks.js `addTask`: obtains the record from the create stub, pushes it,
inserts it into the map, marks modified, returns it. -/
def addTask (d : TaskData) (now : Nat) (s : AppState) : AddResult :=
  let newTask := createTask now d
  { newTask := newTask
    s := { tasks := s.tasks ++ [newTask]
           taskMap := insertTask s.taskMap newTask
           store := markAsModified now s.store }
    calls := [ApiCall.create d] }

/-- Result of tasks.js `editTask` / `deleteTask`: boolean return, state,
trace. -/
structure MutResult where
  ok : Bool
  s : AppState
  calls : List ApiCall

/-- Replace the last entry of the list whose id is `i` by `nt`.  tasks.js
`editTask` mutates the object `taskMap[taskId]` in place; after
`refreshTaskMap`/`addTask` that reference is the last array entry carrying
that id, so the in-place mutation is this list update. -/
def updateLastById : List Task → Nat → Task → List Task
  | [], _, _ => []
  | t :: rest, i, nt =>
      if rest.any (fun x => x.id == i) then t :: updateLastById rest i nt
      else if t.id = i then nt :: rest
      else t :: updateLastById rest i nt

/-- tasks.js `editTask`: calls the update stub first, then looks the id up in
the map; on a miss returns false with nothing changed; on a hit overwrites
title/description/status of the referenced record (its priority is left as
it was — the update result's priority is not copied), marks modified,
returns true. -/
def editTask (taskId : Nat) (u : TaskData) (now : Nat) (s : AppState) :
    MutResult :=
  let updated := updateTask taskId u
  match s.taskMap taskId with
  | none => { ok := false, s := s, calls := [ApiCall.update taskId u] }
  | some old =>
      let nt : Task := { old with title := updated.title
                                  description := updated.description
                                  status := updated.status }
      { ok := true
        s := { tasks := updateLastById s.tasks taskId nt
               taskMap := fun k => if k = taskId then some nt else s.taskMap k
               store := markAsModified now s.store }
        calls := [ApiCall.update taskId u] }

/-- `tasks.findIndex` + `splice`: remove the first entry with id `i`;
`none` when no entry matches. -/
def removeFirstById : List Task → Nat → Option (List Task)
  | [], _ => none
  | t :: rest, i =>
      if t.id = i then some rest
      else (removeFirstById rest i).map (fun ts => t :: ts)

/-- tasks.js `deleteTask`: calls the delete stub, then removes the first
matching array entry and deletes the map key; returns false (nothing else
changed) when no array entry matches. -/
def deleteTask (taskId : Nat) (now : Nat) (s : AppState) : MutResult :=
  match removeFirstById s.tasks taskId with
  | none => { ok := false, s := s, calls := [ApiCall.delete taskId] }
  | some ts1 =>
      { ok := true
        s := { tasks := ts1
               taskMap := fun k => if k = taskId then none else s.taskMap k
               store := markAsModified now s.store }
        calls := [ApiCall.delete taskId] }

/-- tasks.js `loadTasksFromAPI`: replaces the tasks array with the fetched
one and refreshes the map; rethrows a fetch failure. -/
def loadTasksFromAPI (net : Except String StoredVal) (s : AppState) :
    Except String AppState :=
  match fetchTasks net with
  | Except.ok ts => Except.ok (refreshTaskMap { s with tasks := ts })
  | Except.error m => Except.error m

/- ----------------------------------------------------------------
   script.js loadTasks (src/unnamed/part_000, second file)
   ---------------------------------------------------------------- -/

/-- The final data-status indicator class set by a `loadTasks` run. -/
inductive DataStatus where
  | localData
  | api
  | error
deriving DecidableEq, Repr

/-- Outcome of one `loadTasks` run: final state, trace of remote calls,
final status indicator, and the message passed to `showError` if any. -/
structure LoadOutcome where
  s : AppState
  calls : List ApiCall
  status : DataStatus
  errorShown : Option String

/-- script.js `loadTasks`: load from local storage; if data was found and
`hasUnsavedChanges()` holds, stop (local data is authoritative, no fetch);
otherwise fetch — on success replace wholesale (status synced), on failure
keep local data if any was found, else surface a blocking error via
`showError(error.message || 'Failed to load tasks from the server.')`. -/
def loadTasks (s0 : AppState) (net : Except String StoredVal) : LoadOutcome :=
  let r := loadFromLocalStorage s0
  if r.found && hasUnsavedChanges r.s.store then
    { s := r.s, calls := [], status := DataStatus.localData
      errorShown := none }
  else
    match loadTasksFromAPI net r.s with
    | Except.ok s2 =>
        { s := s2, calls := [ApiCall.fetch], status := DataStatus.api
          errorShown := none }
    | Except.error m =>
        if r.found then
          { s := r.s, calls := [ApiCall.fetch], status := DataStatus.localData
            errorShown := none }
        else
          { s := r.s, calls := [ApiCall.fetch], status := DataStatus.error
            errorShown := some (if m = "" then
              "Failed to load tasks from the server." else m) }

/- ----------------------------------------------------------------
   ui.js modal handlers (src/unnamed/part_002)
   ---------------------------------------------------------------- -/

/-- Outcome of a modal-submit handler: final state, remote-call trace, and
whether `saveToLocalStorage` was invoked. -/
structure HandlerOutcome where
  s : AppState
  calls : List ApiCall
  saved : Bool

/-- Model of JS `String.prototype.trim`: strip whitespace characters from
both ends of the string. -/
def jsTrim (s : String) : String :=
  String.mk
    (((s.data.dropWhile Char.isWhitespace).reverse.dropWhile
        Char.isWhitespace).reverse)

/-- ui.js `addNewTask`: reads and trims the modal fields; an empty trimmed
title aborts with an alert before anything else; otherwise `addTask` then
`saveToLocalStorage`. -/
def addNewTask (title description status priority : String) (now : Nat)
    (s : AppState) : HandlerOutcome :=
  let t := jsTrim title
  let d := jsTrim description
  if t = "" then { s := s, calls := [], saved := false }
  else
    let r := addTask { title := t, description := d, status := status
                       priority := priority } now s
    { s := saveToLocalStorage now r.s, calls := r.calls, saved := true }

/-- ui.js `saveChanges`: reads and trims the modal fields; an empty trimmed
title aborts with an alert before anything else; otherwise `editTask`, and
only on a true return `saveToLocalStorage`. -/
def saveChanges (taskId : Nat) (title description status priority : String)
    (now : Nat) (s : AppState) : HandlerOutcome :=
  let t := jsTrim title
  let d := jsTrim description
  if t = "" then { s := s, calls := [], saved := false }
  else
    let r := editTask taskId { title := t, description := d, status := status
                               priority := priority } now s
    if r.ok then { s := saveToLocalStorage now r.s, calls := r.calls
                   saved := true }
    else { s := r.s, calls := r.calls, saved := false }

/- ----------------------------------------------------------------
   Operation sequences over the task collection (for the index invariant)
   ---------------------------------------------------------------- -/

/-- One mutating call on the task collection, with its `Date.now()` value. -/
inductive Op where
  | add (d : TaskData) (now : Nat)
  | edit (id : Nat) (u : TaskData) (now : Nat)
  | del (id : Nat) (now : Nat)

/-- Apply one operation, keeping only the state. -/
def applyOp (s : AppState) : Op → AppState
  | Op.add d now => (addTask d now s).s
  | Op.edit i u now => (editTask i u now s).s
  | Op.del i now => (deleteTask i now s).s

/-- Apply a sequence of operations left to right. -/
def applyOps (s : AppState) (ops : List Op) : AppState :=
  ops.foldl applyOp s

/-- The taskMap equals the mapping derived from the current sequence
(`\x7bt.id: t for t in tasks\x7d`, later entries winning). -/
def mapInv (s : AppState) : Prop :=
  ∀ k, s.taskMap k = buildMap s.tasks k

/-- All ids in the task sequence are pairwise distinct. -/
def idsNodup (s : AppState) : Prop :=
  (s.tasks.map Task.id).Nodup

/-- A run is valid when every `add` fabricates an id (its `Date.now()`) that
is not already the id of a task present at that point. -/
def ValidRun (s : AppState) : List Op → Prop
  | [] => True
  | op :: rest =>
      (match op with
       | Op.add _ now => now ∉ s.tasks.map Task.id
       | _ => True) ∧ ValidRun (applyOp s op) rest

/-- Two `addTask` calls whose `Date.now()` falls in the same millisecond
fabricate the same id; this is the resulting state (two records with id 7,
the map key 7 referencing the second). -/
def twoAddsSameTick : AppState :=
  (addTask (TaskData.mk "B" "" "todo" "low") 7
    (addTask (TaskData.mk "A" "" "todo" "low") 7 initialState).s).s

/- ----------------------------------------------------------------
   Helper lemmas
   ---------------------------------------------------------------- -/

/-- Folding `insertTask` over entries none of which carry id `k` leaves the
mapping unchanged at `k`. -/
theorem foldl_insertTask_not_mem (ts : List Task) (m : Nat → Option Task)
    (k : Nat) (hk : k ∉ ts.map Task.id) :
    ts.foldl insertTask m k = m k := by
  induction ts generalizing m with
  | nil => rfl
  | cons t rest ih =>
    simp only [List.map_cons, List.mem_cons, not_or] at hk
    rw [List.foldl_cons, ih (insertTask m t) hk.2]
    unfold insertTask
    simp [hk.1]

/-- Folding `insertTask` over the same entries starting from mappings that
agree at `k` yields mappings that agree at `k`. -/
theorem foldl_insertTask_congr (ts : List Task) (m m2 : Nat → Option Task)
    (k : Nat) (h : m k = m2 k) :
    ts.foldl insertTask m k = ts.foldl insertTask m2 k := by
  induction ts generalizing m m2 with
  | nil => exact h
  | cons t rest ih =>
    rw [List.foldl_cons, List.foldl_cons]
    apply ih
    unfold insertTask
    by_cases hk : k = t.id <;> simp [hk, h]

/-- Any record found in an `insertTask` fold either carries the looked-up id
or was already present in the initial mapping. -/
theorem foldl_insertTask_some (ts : List Task) (m : Nat → Option Task)
    (k : Nat) (t : Task) (h : ts.foldl insertTask m k = some t) :
    t.id = k ∨ m k = some t := by
  induction ts generalizing m with
  | nil => exact Or.inr h
  | cons a rest ih =>
    rw [List.foldl_cons] at h
    rcases ih (insertTask m a) h with h1 | h2
    · exact Or.inl h1
    · unfold insertTask at h2
      by_cases hk : k = a.id
      · simp [hk] at h2
        subst h2
        exact Or.inl hk.symm
      · simp [hk] at h2
        exact Or.inr h2

/-- A record stored under key `k` in the derived mapping has id `k`. -/
theorem buildMap_id_eq (ts : List Task) (k : Nat) (t : Task)
    (h : buildMap ts k = some t) : t.id = k := by
  rcases foldl_insertTask_some ts (fun _ => none) k t h with h1 | h2
  · exact h1
  · exact absurd h2 (by simp)

/-- The derived mapping of an appended singleton is a point insertion. -/
theorem buildMap_append_single (ts : List Task) (t : Task) (k : Nat) :
    buildMap (ts ++ [t]) k = insertTask (buildMap ts) t k := by
  simp [buildMap, List.foldl_append]

/-- Successful `removeFirstById` splits the list at the first entry with the
searched id. -/
theorem removeFirstById_eq_some (ts : List Task) (i : Nat) (ts1 : List Task)
    (h : removeFirstById ts i = some ts1) :
    ∃ pre d post, ts = pre ++ d :: post ∧ d.id = i ∧
      i ∉ pre.map Task.id ∧ ts1 = pre ++ post := by
  induction ts generalizing ts1 with
  | nil => simp [removeFirstById] at h
  | cons t rest ih =>
    unfold removeFirstById at h
    by_cases ht : t.id = i
    · simp [ht] at h
      exact ⟨[], t, rest, by simp, ht, by simp, h.symm⟩
    · simp [ht] at h
      rcases h with ⟨rest1, hrest1, hts1⟩
      rcases ih rest1 hrest1 with ⟨pre, d, post, h1, h2, h3, h4⟩
      refine ⟨t :: pre, d, post, by simp [h1], h2, ?_, by simp [hts1.symm, h4]⟩
      simp [h3]
      omega


/-- The message `fetchTasks` wraps around any transport failure is never the
empty string. -/
theorem fetch_msg_ne_empty (m : String) :
    ("Failed to fetch tasks: " ++ m) ≠ "" := by
  intro h
  have hlen := congrArg String.length h
  simp [String.length_append] at hlen
  exact absurd hlen.1 (by decide)

/-- `updateLastById` on a list whose last entry with id `i` is `d` replaces
exactly that entry. -/
theorem updateLastById_split (pre : List Task) (d : Task) (post : List Task)
    (i : Nat) (nt : Task) (hd : d.id = i) (hpost : i ∉ post.map Task.id) :
    updateLastById (pre ++ d :: post) i nt = pre ++ nt :: post := by
  induction pre with
  | nil =>
    unfold updateLastById
    have hany : (post.any fun x => x.id == i) = false := by
      simp only [List.any_eq_false, beq_iff_eq]
      intro x hx hxi
      exact hpost (by simpa [hxi] using List.mem_map_of_mem Task.id hx)
    simp [hany, hd]
  | cons p pre2 ih =>
    have hany : ((pre2 ++ d :: post).any fun x => x.id == i) = true := by
      simp only [List.any_eq_true, beq_iff_eq]
      exact ⟨d, by simp, hd⟩
    unfold updateLastById
    simp only [List.cons_append, hany, if_true]
    rw [← List.cons_append]
    simp [ih]

/-- `refreshTaskMap` re-establishes the index invariant from any state. -/
theorem mapInv_refreshTaskMap (s : AppState) : mapInv (refreshTaskMap s) :=
  fun _ => rfl

/-- `addTask` preserves the index invariant, and also id-distinctness when
the fabricated id is fresh. -/
theorem step_addTask (s : AppState) (d : TaskData) (now : Nat)
    (hInv : mapInv s) (hN : idsNodup s)
    (hfresh : now ∉ s.tasks.map Task.id) :
    mapInv (addTask d now s).s ∧ idsNodup (addTask d now s).s := by
  constructor
  · intro k
    show insertTask s.taskMap (createTask now d) k =
      buildMap (s.tasks ++ [createTask now d]) k
    rw [buildMap_append_single]
    unfold insertTask
    by_cases hk : k = (createTask now d).id <;> simp [hk, hInv k]
  · show ((s.tasks ++ [createTask now d]).map Task.id).Nodup
    simp only [List.map_append, List.map_cons, List.map_nil]
    rw [List.nodup_append]
    refine ⟨hN, by simp, ?_⟩
    rw [List.disjoint_singleton]
    simpa [createTask] using hfresh

/-- `deleteTask` preserves the index invariant and id-distinctness when ids
are pairwise distinct. -/
theorem step_deleteTask (s : AppState) (i now : Nat)
    (hInv : mapInv s) (hN : idsNodup s) :
    mapInv (deleteTask i now s).s ∧ idsNodup (deleteTask i now s).s := by
  unfold deleteTask
  cases hrem : removeFirstById s.tasks i with
  | none => exact ⟨hInv, hN⟩
  | some ts1 =>
    rcases removeFirstById_eq_some s.tasks i ts1 hrem with
      ⟨pre, dtask, post, hts, hdi, hpre, hts1⟩
    have hids : s.tasks.map Task.id =
        pre.map Task.id ++ i :: post.map Task.id := by
      rw [hts]; simp [hdi]
    have hN2 : (pre.map Task.id ++ i :: post.map Task.id).Nodup := by
      rw [← hids]; exact hN
    rw [List.nodup_append] at hN2
    have hpost : i ∉ post.map Task.id := by
      have := hN2.2.1
      rw [List.nodup_cons] at this
      exact this.1
    constructor
    · intro k
      show (if k = i then none else s.taskMap k) = buildMap ts1 k
      by_cases hk : k = i
      · subst hk
        simp only [if_pos rfl]
        rw [hts1]
        symm
        show (pre ++ post).foldl insertTask (fun _ => none) k = none
        rw [List.foldl_append]
        rw [foldl_insertTask_not_mem post _ k hpost]
        exact foldl_insertTask_not_mem pre _ k hpre
      · rw [if_neg hk, hInv k, hts, hts1]
        show (pre ++ dtask :: post).foldl insertTask (fun _ => none) k =
          (pre ++ post).foldl insertTask (fun _ => none) k
        rw [List.foldl_append, List.foldl_append, List.foldl_cons]
        apply foldl_insertTask_congr
        unfold insertTask
        rw [if_neg (by rw [hdi]; exact hk)]
    · show (ts1.map Task.id).Nodup
      rw [hts1]
      have hsub : List.Sublist ((pre ++ post).map Task.id)
          (s.tasks.map Task.id) := by
        rw [hts]
        exact List.Sublist.map Task.id
          (List.Sublist.append_left
            (List.Sublist.cons dtask (List.Sublist.refl post)) pre)
      exact List.Nodup.sublist hsub hN

/-- `editTask` preserves the index invariant and id-distinctness when ids
are pairwise distinct. -/
theorem step_editTask (s : AppState) (i : Nat) (u : TaskData) (now : Nat)
    (hInv : mapInv s) (hN : idsNodup s) :
    mapInv (editTask i u now s).s ∧ idsNodup (editTask i u now s).s := by
  unfold editTask
  cases hm : s.taskMap i with
  | none => exact ⟨hInv, hN⟩
  | some old =>
    have hb : buildMap s.tasks i = some old := by rw [← hInv i]; exact hm
    have hoid : old.id = i := buildMap_id_eq s.tasks i old hb
    have hmem : i ∈ s.tasks.map Task.id := by
      by_contra hni
      rw [show buildMap s.tasks i =
        s.tasks.foldl insertTask (fun _ => none) i from rfl,
        foldl_insertTask_not_mem s.tasks _ i hni] at hb
      exact Option.noConfusion hb
    rcases List.mem_map.mp hmem with ⟨dtask, hdmem, hdi⟩
    rcases List.append_of_mem hdmem with ⟨pre, post, hts⟩
    have hids : s.tasks.map Task.id =
        pre.map Task.id ++ i :: post.map Task.id := by
      rw [hts]; simp [hdi]
    have hN2 : (pre.map Task.id ++ i :: post.map Task.id).Nodup := by
      rw [← hids]; exact hN
    rw [List.nodup_append] at hN2
    have hpre : i ∉ pre.map Task.id := fun hin =>
      (List.disjoint_left.mp hN2.2.2) hin (by simp)
    have hpost : i ∉ post.map Task.id := by
      have := hN2.2.1
      rw [List.nodup_cons] at this
      exact this.1
    set nt : Task := { old with title := (updateTask i u).title
                                description := (updateTask i u).description
                                status := (updateTask i u).status } with hnt
    have hntid : nt.id = i := by rw [hnt]; exact hoid
    have hupd : updateLastById s.tasks i nt = pre ++ nt :: post := by
      rw [hts]
      exact updateLastById_split pre dtask post i nt hdi hpost
    constructor
    · intro k
      show (if k = i then some nt else s.taskMap k) =
        buildMap (updateLastById s.tasks i nt) k
      rw [hupd]
      by_cases hk : k = i
      · subst hk
        rw [if_pos rfl]
        symm
        show (pre ++ nt :: post).foldl insertTask (fun _ => none) k =
          some nt
        rw [List.foldl_append, List.foldl_cons,
          foldl_insertTask_not_mem post _ k hpost]
        unfold insertTask
        rw [if_pos hntid.symm]
      · rw [if_neg hk, hInv k, hts]
        show (pre ++ dtask :: post).foldl insertTask (fun _ => none) k =
          (pre ++ nt :: post).foldl insertTask (fun _ => none) k
        rw [List.foldl_append, List.foldl_append, List.foldl_cons,
          List.foldl_cons]
        apply foldl_insertTask_congr
        unfold insertTask
        rw [if_neg (by rw [hdi]; exact hk), if_neg (by rw [hntid]; exact hk)]
    · show ((updateLastById s.tasks i nt).map Task.id).Nodup
      rw [hupd]
      have : (pre ++ nt :: post).map Task.id = s.tasks.map Task.id := by
        rw [hids]
        simp [hntid, hoid]
      rw [this]
      exact hN

/- ----------------------------------------------------------------
   Claims
   ---------------------------------------------------------------- -/

/-- C1: whenever the local-store load succeeds and `hasUnsavedChanges()` is
true, a `loadTasks` run performs no remote fetch (for any transport outcome)
and the final task collection is exactly the array parsed from local
storage. -/
theorem C1_unsaved_local_skips_fetch (s : AppState) (ts : List Task)
    (net : Except String StoredVal)
    (h1 : s.store.tasksVal = some (StoredVal.arr ts))
    (h2 : hasUnsavedChanges s.store = true) :
    ApiCall.fetch ∉ (loadTasks s net).calls ∧
    (loadTasks s net).s.tasks = ts := by
  unfold loadTasks
  simp [loadFromLocalStorage, h1, refreshTaskMap, h2]

/-- Witness for C1: a store with local data and `lastModified > lastSaved`;
the fetch would have succeeded with a different array, yet the run keeps the
local one and makes no call. -/
theorem C1_witness :
    ApiCall.fetch ∉
      (loadTasks
        { tasks := [], taskMap := fun _ => none
          store := { tasksVal := some (StoredVal.arr
                        [{ id := 1, title := "A", description := ""
                           status := "todo", priority := none }])
                     lastSaved := some 1000, lastModified := some 1500 } }
        (Except.ok (StoredVal.arr []))).calls ∧
    (loadTasks
        { tasks := [], taskMap := fun _ => none
          store := { tasksVal := some (StoredVal.arr
                        [{ id := 1, title := "A", description := ""
                           status := "todo", priority := none }])
                     lastSaved := some 1000, lastModified := some 1500 } }
        (Except.ok (StoredVal.arr []))).s.tasks =
      [{ id := 1, title := "A", description := "", status := "todo"
         priority := none }] :=
  C1_unsaved_local_skips_fetch _ _ _ rfl (by decide)

/-- C3 counterexample: a store in which both timestamp keys are present and
the integer value of `lastModified` (5) strictly exceeds that of `lastSaved`
(0), yet `hasUnsavedChanges` returns false: the numeric falsiness check
`!lastSaved` on the parsed value treats a stored `"0"` as unset, refuting
the claimed iff. -/
theorem C3_counterexample :
    (Store.mk none (some 0) (some 5)).lastSaved.isSome = true ∧
    (Store.mk none (some 0) (some 5)).lastModified.isSome = true ∧
    (5 : Nat) > 0 ∧
    hasUnsavedChanges (Store.mk none (some 0) (some 5)) = false := by
  decide

/-- C3 amended: `hasUnsavedChanges` returns true iff both timestamp keys are
present, the parsed `lastSaved` is nonzero, and `lastModified` strictly
exceeds `lastSaved`. -/
theorem C3_hasUnsavedChanges_iff (st : Store) :
    hasUnsavedChanges st = true ↔
      ∃ sv m, st.lastSaved = some sv ∧ st.lastModified = some m ∧
        sv ≠ 0 ∧ m > sv := by
  unfold hasUnsavedChanges getLastSavedTime
  cases h1 : st.lastSaved with
  | none => simp
  | some sv =>
    cases h2 : st.lastModified with
    | none => simp
    | some m =>
      by_cases hz : sv = 0 <;> simp [hz]

/-- C4: `addTask` returns a record carrying exactly the supplied title,
description and status, with no priority field (the create stub drops it),
and looking the returned id up in the map finds that record. -/
theorem C4_addTask_fields (d : TaskData) (now : Nat) (s : AppState) :
    (addTask d now s).newTask.title = d.title ∧
    (addTask d now s).newTask.description = d.description ∧
    (addTask d now s).newTask.status = d.status ∧
    (addTask d now s).newTask.priority = none ∧
    (addTask d now s).s.taskMap (addTask d now s).newTask.id =
      some (addTask d now s).newTask := by
  refine ⟨rfl, rfl, rfl, rfl, ?_⟩
  simp [addTask, insertTask, createTask]

/-- C5: on an id absent from the map, `editTask` returns false with the
whole module state unchanged, and its trace shows the remote update stub was
called (the call precedes the lookup in the source). -/
theorem C5_editTask_absent (i : Nat) (u : TaskData) (now : Nat) (s : AppState)
    (h : s.taskMap i = none) :
    (editTask i u now s).ok = false ∧
    (editTask i u now s).s = s ∧
    (editTask i u now s).calls = [ApiCall.update i u] := by
  simp [editTask, h]

/-- Witness for C5: editing id 5 in the empty initial state. -/
theorem C5_witness :
    initialState.taskMap 5 = none ∧
    (editTask 5 (TaskData.mk "T" "D" "todo" "low") 3 initialState).ok
        = false ∧
    (editTask 5 (TaskData.mk "T" "D" "todo" "low") 3 initialState).s
        = initialState ∧
    (editTask 5 (TaskData.mk "T" "D" "todo" "low") 3 initialState).calls
        = [ApiCall.update 5 (TaskData.mk "T" "D" "todo" "low")] :=
  ⟨rfl, C5_editTask_absent 5 (TaskData.mk "T" "D" "todo" "low") 3
    initialState rfl⟩

/-- C6: `saveToLocalStorage` followed by `loadFromLocalStorage` returns true
and yields a task sequence equal by value to the one saved. -/
theorem C6_save_load_roundtrip (now : Nat) (s : AppState) :
    (loadFromLocalStorage (saveToLocalStorage now s)).found = true ∧
    (loadFromLocalStorage (saveToLocalStorage now s)).s.tasks = s.tasks := by
  simp [loadFromLocalStorage, saveToLocalStorage, refreshTaskMap]

/-- C7: with no usable local data and an initially empty collection, a
failing fetch makes `loadTasks` surface the blocking error state whose
message is exactly the message of the error `fetchTasks` threw, and the
collection stays empty. -/
theorem C7_no_local_fetch_fail (s : AppState) (m : String)
    (h1 : (loadFromLocalStorage s).found = false)
    (h2 : s.tasks = []) :
    (loadTasks s (Except.error m)).errorShown =
        some ("Failed to fetch tasks: " ++ m) ∧
    (loadTasks s (Except.error m)).status = DataStatus.error ∧
    (loadTasks s (Except.error m)).s.tasks = [] ∧
    fetchTasks (Except.error m) =
        Except.error ("Failed to fetch tasks: " ++ m) := by
  unfold loadTasks loadTasksFromAPI fetchTasks
  cases hv : s.store.tasksVal with
  | none =>
    simp [loadFromLocalStorage, hv, h2, fetch_msg_ne_empty m]
  | some v =>
    cases v with
    | arr ts => simp [loadFromLocalStorage, hv] at h1
    | num n => simp [loadFromLocalStorage, hv, fetch_msg_ne_empty m]
    | str t => simp [loadFromLocalStorage, hv, fetch_msg_ne_empty m]
    | boolv b => simp [loadFromLocalStorage, hv, fetch_msg_ne_empty m]
    | nullv => simp [loadFromLocalStorage, hv, fetch_msg_ne_empty m]
    | objv f => simp [loadFromLocalStorage, hv, fetch_msg_ne_empty m]

/-- Witness for C7: fresh start (no keys set, empty collection), network
down. -/
theorem C7_witness :
    (loadTasks initialState (Except.error "network down")).errorShown =
        some ("Failed to fetch tasks: " ++ "network down") ∧
    (loadTasks initialState (Except.error "network down")).status =
        DataStatus.error ∧
    (loadTasks initialState (Except.error "network down")).s.tasks = [] ∧
    fetchTasks (Except.error "network down") =
        Except.error ("Failed to fetch tasks: " ++ "network down") :=
  C7_no_local_fetch_fail initialState "network down" rfl rfl

/-- C8 counterexample: a mutation on a fresh store (no save has ever
happened) writes `lastModified` yet `hasUnsavedChanges` still returns false,
because `lastSaved` is absent — refuting the clause that it is true
immediately after any mutation followed by no save. -/
theorem C8_counterexample :
    Store.lastModified
      (addTask (TaskData.mk "T" "" "todo" "medium") 5 initialState).s.store
        = some 5 ∧
    Store.lastSaved
      (addTask (TaskData.mk "T" "" "todo" "medium") 5 initialState).s.store
        = none ∧
    hasUnsavedChanges
      (addTask (TaskData.mk "T" "" "todo" "medium") 5 initialState).s.store
        = false := by
  decide

/-- C8 amended: (a) with both timestamp keys absent `hasUnsavedChanges` is
false; (b) immediately after a mutation (`markAsModified`) at a time
strictly later than an existing nonzero `lastSaved`, with no intervening
save, it is true; (c) immediately after `saveToLocalStorage` at a time no
earlier than any recorded `lastModified`, it is false. -/
theorem C8_amended :
    (∀ st : Store, st.lastSaved = none → st.lastModified = none →
        hasUnsavedChanges st = false) ∧
    (∀ (st : Store) (sv t : Nat), st.lastSaved = some sv → sv ≠ 0 →
        t > sv → hasUnsavedChanges (markAsModified t st) = true) ∧
    (∀ (s : AppState) (t : Nat),
        (∀ m, s.store.lastModified = some m → m ≤ t) →
        hasUnsavedChanges (saveToLocalStorage t s).store = false) := by
  refine ⟨?_, ?_, ?_⟩
  · intro st h1 h2
    simp [hasUnsavedChanges, getLastSavedTime, h1, h2]
  · intro st sv t h1 hz ht
    simp [hasUnsavedChanges, getLastSavedTime, markAsModified, h1, hz, ht]
  · intro s t hm
    unfold hasUnsavedChanges getLastSavedTime saveToLocalStorage
    cases hv : s.store.lastModified with
    | none => simp [hv]
    | some m =>
      have := hm m hv
      by_cases hz : t = 0
      · simp [hv, hz]
      · simp [hv, hz]
        omega

/-- Witness for C8 amended: the three parts at concrete stores. -/
theorem C8_witness :
    hasUnsavedChanges (Store.mk none none none) = false ∧
    hasUnsavedChanges (markAsModified 2 (Store.mk none (some 1) none))
        = true ∧
    hasUnsavedChanges (saveToLocalStorage 3 initialState).store = false :=
  ⟨C8_amended.1 (Store.mk none none none) rfl rfl,
   C8_amended.2.1 (Store.mk none (some 1) none) 1 2 rfl (by decide)
     (by decide),
   C8_amended.2.2 initialState 3 (fun m h => by simp [initialState] at h)⟩

/-- C9: with an all-whitespace title, neither modal handler touches the
collection or the store, and no remote call and no save occur — validation
happens at the UI boundary before any mutation. -/
theorem C9_empty_title_no_mutation (title description status priority :
    String) (taskId now : Nat) (s : AppState) (h : jsTrim title = "") :
    addNewTask title description status priority now s =
      { s := s, calls := [], saved := false } ∧
    saveChanges taskId title description status priority now s =
      { s := s, calls := [], saved := false } := by
  simp [addNewTask, saveChanges, h]

/-- Witness for C9: a title of blanks. -/
theorem C9_witness :
    addNewTask "  " "d" "todo" "low" 7 initialState =
      { s := initialState, calls := [], saved := false } ∧
    saveChanges 1 "  " "d" "todo" "low" 7 initialState =
      { s := initialState, calls := [], saved := false } :=
  C9_empty_title_no_mutation "  " "d" "todo" "low" 1 7 initialState
    (by decide)

/-- C10: when the `tasks` key holds valid JSON that is not an array,
`loadFromLocalStorage` returns false yet has already cleared the in-memory
task sequence, leaving the collection empty rather than unchanged. -/
theorem C10_load_nonarray (s : AppState) (v : StoredVal)
    (h1 : s.store.tasksVal = some v) (h2 : v.isArr = false) :
    (loadFromLocalStorage s).found = false ∧
    (loadFromLocalStorage s).s.tasks = [] := by
  cases v with
  | arr ts => simp [StoredVal.isArr] at h2
  | num n => simp [loadFromLocalStorage, h1]
  | str t => simp [loadFromLocalStorage, h1]
  | boolv b => simp [loadFromLocalStorage, h1]
  | nullv => simp [loadFromLocalStorage, h1]
  | objv f => simp [loadFromLocalStorage, h1]

/-- C2 counterexample: after two `addTask` calls in the same `Date.now()`
millisecond (both fabricate id 7) followed by a successful
`deleteTask 7`, the map lacks key 7 while the derived mapping
of the remaining sequence still has it — `deleteTask` removes the first
array entry but deletes the whole map key, so immediately after this
mutating call the index differs from the derived mapping. -/
theorem C2_counterexample :
    (deleteTask 7 9 twoAddsSameTick).ok = true ∧
    (deleteTask 7 9 twoAddsSameTick).s.taskMap 7 = none ∧
    buildMap (deleteTask 7 9 twoAddsSameTick).s.tasks 7 =
      some (Task.mk 7 "B" "" "todo" none) := by
  decide

/-- C2 amended: `refreshTaskMap` unconditionally re-establishes
`taskMap = \x7bt.id: t for t in tasks\x7d`, and every sequence of
addTask/editTask/deleteTask calls preserves it from any state whose task
ids are pairwise distinct, provided each add fabricates a fresh id (ids
remain unique, as the spec assumes). -/
theorem C2_index_invariant :
    (∀ s : AppState, mapInv (refreshTaskMap s)) ∧
    (∀ (s : AppState) (ops : List Op), mapInv s → idsNodup s →
        ValidRun s ops →
        mapInv (applyOps s ops) ∧ idsNodup (applyOps s ops)) := by
  constructor
  · exact mapInv_refreshTaskMap
  · intro s ops
    induction ops generalizing s with
    | nil => exact fun hInv hN _ => ⟨hInv, hN⟩
    | cons op rest ih =>
      intro hInv hN hrun
      have hstep : mapInv (applyOp s op) ∧ idsNodup (applyOp s op) := by
        cases op with
        | add d now => exact step_addTask s d now hInv hN hrun.1
        | edit i u now => exact step_editTask s i u now hInv hN
        | del i now => exact step_deleteTask s i now hInv hN
      exact ih (applyOp s op) hstep.1 hstep.2 hrun.2

/-- Witness for C2 amended: an add (fresh id 1) followed by a delete of id 1
starting from the empty initial state. -/
theorem C2_witness :
    mapInv (applyOps initialState
      [Op.add (TaskData.mk "A" "" "todo" "low") 1, Op.del 1 2]) ∧
    idsNodup (applyOps initialState
      [Op.add (TaskData.mk "A" "" "todo" "low") 1, Op.del 1 2]) :=
  C2_index_invariant.2 initialState
    [Op.add (TaskData.mk "A" "" "todo" "low") 1, Op.del 1 2]
    (fun _ => rfl) (by simp [idsNodup, initialState])
    ⟨by simp [initialState], trivial, trivial⟩

/-- Witness for C10: a stored JSON number 7 with a nonempty in-memory
collection gets cleared and reported not-found. -/
theorem C10_witness :
    (loadFromLocalStorage
      { tasks := [{ id := 1, title := "A", description := ""
                    status := "todo", priority := none }]
        taskMap := fun _ => none
        store := { tasksVal := some (StoredVal.num 7)
                   lastSaved := none, lastModified := none } }).found
      = false ∧
    (loadFromLocalStorage
      { tasks := [{ id := 1, title := "A", description := ""
                    status := "todo", priority := none }]
        taskMap := fun _ => none
        store := { tasksVal := some (StoredVal.num 7)
                   lastSaved := none, lastModified := none } }).s.tasks
      = [] :=
  C10_load_nonarray _ (StoredVal.num 7) rfl rfl

end Kanban
